import Mathlib

/-!
Verification development for the `xquality` OpenCV contrib-style module
(QualityGMLOG, a no-reference GM-LOG quality estimator, and
QualityBlockSVD, a reference-based block singular-value metric).

The repository ships only the public header `xquality/nonfree.hpp`; all
implementation units are absent.  Apart from the inline delegation
`QualityBlockSVD::compute(ref, cmp)` (which is present in the header and
embedded faithfully below), the pipeline components are modelled from the
specification.  Rational arithmetic stands in for the C++ floating-point
arithmetic so that the GM-LOG pipeline stays executable; the Block-SVD
spectrum is taken over the reals because singular values are irrational
in general.
-/

namespace XQuality

/-- Modelled from the spec: the error taxonomy of §7
(`InvalidArgument`, `DimensionMismatch`, `IOError`, `ConfigurationError`). -/
inductive QErr where
  | invalidArgument
  | dimensionMismatch
  | ioError
  | configurationError
deriving DecidableEq, Repr

/-- Clamp `x` into the interval `[lo, hi]`. -/
def clampQ (lo hi x : ℚ) : ℚ := max lo (min hi x)

/-- Modelled from the spec: the RangeNormalizer of §4.4 (the implementation
unit is absent from the repository).  For bounds `(mn, mx)` the output is
`-1 + 2 (x - mn) / (mx - mn)` clamped to `[-1, 1]`; the degenerate case
`mx = mn` yields `0`. -/
def normalizeDim (mn mx x : ℚ) : ℚ :=
  if mx = mn then 0 else clampQ (-1) 1 (-1 + 2 * (x - mn) / (mx - mn))

/-- Modelled from the spec: per-dimension application of the range
normalizer across a feature vector (§4.4, applied independently per
dimension). -/
def rangeNormalize (rng : List (ℚ × ℚ)) (v : List ℚ) : List ℚ :=
  List.zipWith (fun p x => normalizeDim p.1 p.2 x) rng v

/-- An image: a 2-D grid of per-channel rational intensity samples
(§3, "Image").  `data row col channel` is the sample value; indices
outside `rows × cols × channels` are never read by the pipeline except
through replicate-border access. -/
structure QImage where
  rows : ℕ
  cols : ℕ
  channels : ℕ
  data : ℕ → ℕ → ℕ → ℚ

/-- Replicate-border index clamping (§4.2 border handling). -/
def borderIdx (n : ℕ) (k : ℤ) : ℕ := min (n - 1) (Int.toNat (max 0 k))

/-- Replicate-border pixel access on a single-channel map. -/
def pixAt (rows cols : ℕ) (f : ℕ → ℕ → ℚ) (i j : ℤ) : ℚ :=
  f (borderIdx rows i) (borderIdx cols j)

/-- Modelled from the spec: the fixed smoothing filter of the
ScaleSpaceBuilder (§4.1, "Gaussian blur then stride-2 sampling"); a 3×3
binomial kernel with replicate borders stands in for the Gaussian. -/
def smooth (rows cols : ℕ) (f : ℕ → ℕ → ℚ) : ℕ → ℕ → ℚ := fun i j =>
  (pixAt rows cols f ((i : ℤ) - 1) ((j : ℤ) - 1)
   + 2 * pixAt rows cols f ((i : ℤ) - 1) (j : ℤ)
   + pixAt rows cols f ((i : ℤ) - 1) ((j : ℤ) + 1)
   + 2 * pixAt rows cols f (i : ℤ) ((j : ℤ) - 1)
   + 4 * pixAt rows cols f (i : ℤ) (j : ℤ)
   + 2 * pixAt rows cols f (i : ℤ) ((j : ℤ) + 1)
   + pixAt rows cols f ((i : ℤ) + 1) ((j : ℤ) - 1)
   + 2 * pixAt rows cols f ((i : ℤ) + 1) (j : ℤ)
   + pixAt rows cols f ((i : ℤ) + 1) ((j : ℤ) + 1)) / 16

/-- Spatial extent of a level after one 2× decimation. -/
def halfDim (n : ℕ) : ℕ := (n + 1) / 2

/-- One scale-space step: smoothing followed by stride-2 decimation
(§4.1). -/
def downsample (rows cols : ℕ) (f : ℕ → ℕ → ℚ) : ℕ → ℕ → ℚ := fun i j =>
  smooth rows cols f (2 * i) (2 * j)

/-- Number of scales of the scale space (§4.1, "fixed per algorithm
version, e.g., 2"). -/
def numScales : ℕ := 2

/-- Number of scalar statistics extracted per scale (§4.3, "a small
fixed number of scalar statistics"). -/
def statsPerScale : ℕ := 4

/-- The contractual feature-vector length `L` (§3, "FeatureVector"):
number of scales × per-scale statistic count. -/
def featLen : ℕ := numScales * statsPerScale

/-- Minimum side length required to build `numScales` levels (§4.1). -/
def minSide : ℕ := 2

/-- Modelled from the spec: the ScaleSpaceBuilder (§4.1, implementation
absent from the repository): an ordered sequence of `n` levels, each a 2×
downsample of the previous. -/
def buildLevels : ℕ → ℕ → ℕ → (ℕ → ℕ → ℚ) → List (ℕ × ℕ × (ℕ → ℕ → ℚ))
  | 0, _, _, _ => []
  | n + 1, r, c, f => (r, c, f) :: buildLevels n (halfDim r) (halfDim c) (downsample r c f)

/-- Modelled from the spec: gradient magnitude via a fixed local derivative
operator (§4.2); central differences with an L1 magnitude keep the map
rational. -/
def gradMag (rows cols : ℕ) (f : ℕ → ℕ → ℚ) : ℕ → ℕ → ℚ := fun i j =>
  |pixAt rows cols f (i : ℤ) ((j : ℤ) + 1) - pixAt rows cols f (i : ℤ) ((j : ℤ) - 1)|
  + |pixAt rows cols f ((i : ℤ) + 1) (j : ℤ) - pixAt rows cols f ((i : ℤ) - 1) (j : ℤ)|

/-- Modelled from the spec: the band-pass Laplacian-of-Gaussian response
(§4.2): a 4-neighbour Laplacian of the smoothed map, at a fixed
bandwidth. -/
def logResp (rows cols : ℕ) (f : ℕ → ℕ → ℚ) : ℕ → ℕ → ℚ := fun i j =>
  pixAt rows cols (smooth rows cols f) ((i : ℤ) + 1) (j : ℤ)
  + pixAt rows cols (smooth rows cols f) ((i : ℤ) - 1) (j : ℤ)
  + pixAt rows cols (smooth rows cols f) (i : ℤ) ((j : ℤ) + 1)
  + pixAt rows cols (smooth rows cols f) (i : ℤ) ((j : ℤ) - 1)
  - 4 * pixAt rows cols (smooth rows cols f) (i : ℤ) (j : ℤ)

/-- Modelled from the spec: the local energy estimate used for joint
normalization (§4.3, "each divided by a local energy estimate"); a mean of
squared responses over a 3×3 window, stabilised by `+ 1`. -/
def localEnergy (rows cols : ℕ) (gm lg : ℕ → ℕ → ℚ) : ℕ → ℕ → ℚ := fun i j =>
  1 + (∑ a in Finset.range 3, ∑ b in Finset.range 3,
        (pixAt rows cols gm ((i : ℤ) + a - 1) ((j : ℤ) + b - 1) ^ 2
         + pixAt rows cols lg ((i : ℤ) + a - 1) ((j : ℤ) + b - 1) ^ 2)) / 9

/-- Mean of a map over the `rows × cols` grid. -/
def meanOver (rows cols : ℕ) (f : ℕ → ℕ → ℚ) : ℚ :=
  (∑ i in Finset.range rows, ∑ j in Finset.range cols, f i j) / (rows * cols)

/-- Modelled from the spec: the per-scale statistical summary of the
NSSFeatureExtractor (§4.3).  The exact reduction is an open question of the
spec; a fixed moment-based summary of the jointly normalized
gradient-magnitude and band-pass maps is used, with `statsPerScale`
entries. -/
def scaleStats (rows cols : ℕ) (f : ℕ → ℕ → ℚ) : List ℚ :=
  let gm := gradMag rows cols f
  let lg := logResp rows cols f
  let en := localEnergy rows cols gm lg
  let ngm := fun i j => gm i j / en i j
  let nlg := fun i j => lg i j / en i j
  [meanOver rows cols ngm,
   meanOver rows cols nlg,
   meanOver rows cols (fun i j => ngm i j * nlg i j),
   meanOver rows cols (fun i j => ngm i j ^ 2 + nlg i j ^ 2)]

/-- Modelled from the spec: steps §4.1–§4.3 on one intensity map: build the
scale space, extract per-scale statistics, concatenate in scale order.
Fails with `InvalidArgument` when the input is below the minimum size
needed to produce `numScales` levels. -/
def featuresOfMap (rows cols : ℕ) (f : ℕ → ℕ → ℚ) : Except QErr (List ℚ) :=
  if rows < minSide ∨ cols < minSide then .error .invalidArgument
  else .ok (((buildLevels numScales rows cols f).map
              (fun l => scaleStats l.1 l.2.1 l.2.2)).flatten)

/-- The single intensity map a `computeFeatures` call works on: the sole
channel of a grayscale input, or the derived grayscale of a colour input
(§4.6; alpha ignored, §3). -/
def toIntensity (img : QImage) : ℕ → ℕ → ℚ :=
  if img.channels = 1 then fun i j => img.data i j 0
  else fun i j => (img.data i j 0 + img.data i j 1 + img.data i j 2) / 3

/-- Modelled from the spec: `QualityGMLOG::computeFeatures` (§4.6,
declared at `nonfree.hpp` line 52, implementation absent): exposes steps
§4.1–§4.3 only; does not touch Range or Model. -/
def computeFeatures (img : QImage) : Except QErr (List ℚ) :=
  featuresOfMap img.rows img.cols (toIntensity img)

/-- Modelled from the spec: the Model artifact (§6): kernel parameters are
specialised to a linear kernel so evaluation stays rational; `dim` is the
expected input dimension `L`, `sv` the support vectors, `coef` the dual
coefficients, `bias` the bias. -/
structure SVMModel where
  dim : ℕ
  sv : List (List ℚ)
  coef : List ℚ
  bias : ℚ

/-- Dot product of two rational vectors. -/
def dotQ (a b : List ℚ) : ℚ := (List.zipWith (fun x y => x * y) a b).sum

/-- Modelled from the spec: the QualityRegressor (§4.5, implementation
absent): weighted kernel similarity between the input vector and the
stored support vectors, plus bias.  Fails with `DimensionMismatch` when
the input length differs from the model's expected `L`. -/
def predict (m : SVMModel) (x : List ℚ) : Except QErr ℚ :=
  if x.length = m.dim then
    .ok (m.bias + (List.zipWith (fun c s => c * dotQ s x) m.coef m.sv).sum)
  else .error .dimensionMismatch

/-- Modelled from the spec: the GMLOGQualityEngine state (§4.6): the bound
Model and Range, acquired once at construction and immutable thereafter
(§3, Lifecycle). -/
structure GMLOGEngine where
  model : SVMModel
  rng : List (ℚ × ℚ)

/-- Modelled from the spec: `QualityGMLOG::create(model, range)`
(`nonfree.hpp` line 71, implementation absent): validates that the Model's
expected dimension is consistent with the Range's length; a mismatch fails
with `ConfigurationError` at construction (§4.6). -/
def create (m : SVMModel) (r : List (ℚ × ℚ)) : Except QErr GMLOGEngine :=
  if m.dim = r.length then .ok ⟨m, r⟩ else .error .configurationError

/-- One per-channel run of the full pipeline §4.1–§4.5 on intensity map
`f`: features, range normalization, regression. -/
def channelScoreG (e : GMLOGEngine) (rows cols : ℕ) (f : ℕ → ℕ → ℚ) :
    Except QErr ℚ :=
  (featuresOfMap rows cols f).bind fun feat =>
    predict e.model (rangeNormalize e.rng feat)

/-- The derived grayscale channel of a colour image (§4.6; a fixed average
of the three colour channels, alpha ignored). -/
def grayOf (img : QImage) : ℕ → ℕ → ℚ := fun i j =>
  (img.data i j 0 + img.data i j 1 + img.data i j 2) / 3

/-- Modelled from the spec: `QualityGMLOG::compute(img)` (`nonfree.hpp`
line 34, implementation absent): for a colour image the pipeline runs on
each colour channel plus the derived grayscale channel (4 scores for
RGB(A)); for a grayscale image it returns a single score; unsupported
channel layouts fail with `InvalidArgument` (§4.6). -/
def computeScores (e : GMLOGEngine) (img : QImage) : Except QErr (List ℚ) :=
  if img.channels = 1 then
    (channelScoreG e img.rows img.cols (fun i j => img.data i j 0)).bind fun s =>
      .ok [s]
  else if img.channels = 3 ∨ img.channels = 4 then
    (channelScoreG e img.rows img.cols (fun i j => img.data i j 0)).bind fun s0 =>
    (channelScoreG e img.rows img.cols (fun i j => img.data i j 1)).bind fun s1 =>
    (channelScoreG e img.rows img.cols (fun i j => img.data i j 2)).bind fun s2 =>
    (channelScoreG e img.rows img.cols (grayOf img)).bind fun sg =>
      .ok [s0, s1, s2, sg]
  else .error .invalidArgument

/-- Modelled from the spec: the instance-level `compute` call with explicit
state passing (§3, Lifecycle: Model/Range immutable, every other entity
created and discarded within a single `compute` invocation, no cross-call
caching of per-image state).  Returns the result together with the engine
state after the call. -/
def computeSt (e : GMLOGEngine) (img : QImage) :
    Except QErr (List ℚ) × GMLOGEngine :=
  (computeScores e img, e)

/-- Modelled from the spec: the three-argument
`QualityGMLOG::compute(img, model_file_path, range_file_path)`
(`nonfree.hpp` line 45, implementation absent): the stateless variant that
uses Model/Range loaded from the artifacts for this call only and does not
mutate instance state (§4.6).  Artifact parsing is an external
collaborator (§6), so the already-loaded artifacts stand in for the
paths. -/
def computeWithArtifacts (e : GMLOGEngine) (img : QImage)
    (m : SVMModel) (r : List (ℚ × ℚ)) :
    Except QErr (List ℚ) × GMLOGEngine :=
  ((create m r).bind fun tmp => computeScores tmp img, e)

/-- An image with real-valued samples, used by the Block-SVD metric:
singular values are irrational in general, so the reference-based metric
is modelled over `ℝ`. -/
structure RImage where
  rows : ℕ
  cols : ℕ
  channels : ℕ
  data : ℕ → ℕ → ℕ → ℝ

/-- The Block-SVD metric instance state: the block size, configurable
between calls (`nonfree.hpp` lines 138–143, §3 "Block"). -/
structure BlockSVDMetric where
  blockH : ℕ
  blockW : ℕ

/-- Number of block rows of the partition grid: trailing partial blocks
are included with reduced extent (§4.7, a single fixed policy). -/
def gridRows (bh rows : ℕ) : ℕ := (rows + bh - 1) / bh

/-- Number of block columns of the partition grid. -/
def gridCols (bw cols : ℕ) : ℕ := (cols + bw - 1) / bw

/-- The Gram matrix `Aᵀ·A` of an `h × w` block given by entry function
`f`; its eigenvalues are the squared singular values of the block. -/
def gram (h w : ℕ) (f : ℕ → ℕ → ℝ) : Matrix (Fin w) (Fin w) ℝ :=
  Matrix.of fun a b => ∑ i in Finset.range h, f i a.val * f i b.val

/-- The Gram matrix is Hermitian (symmetric over `ℝ`); this proof term is
what gives access to its eigenvalues. -/
def gram_isHermitian (h w : ℕ) (f : ℕ → ℕ → ℝ) :
    (gram h w f).IsHermitian := by
  refine Matrix.IsHermitian.ext fun a b => ?_
  simp only [gram, Matrix.of_apply, RCLike.star_def, conj_trivial]
  exact Finset.sum_congr rfl fun i _ => mul_comm _ _

/-- Modelled from the spec: the singular-value spectrum of an `h × w`
block (§4.8, "SVD restricted to singular values"): the square roots of
the eigenvalues of the Gram matrix, in Mathlib's deterministic eigenvalue
order (§3, "SingularValueVector"). -/
noncomputable def blockSpectrum (h w : ℕ) (f : ℕ → ℕ → ℝ) : Fin w → ℝ :=
  fun j => Real.sqrt ((gram_isHermitian h w f).eigenvalues j)

/-- Modelled from the spec: the normalized distance between two spectra
(§4.8, "relative L2 norm of the spectrum difference, scaled so identical
blocks yield distance 0 and maximally dissimilar blocks approach 1"):
`‖σr − σc‖₂ / (‖σr‖₂ + ‖σc‖₂)` (real division, `0/0 = 0` for two zero
blocks). -/
noncomputable def spectrumDistance (h w : ℕ) (fr fc : ℕ → ℕ → ℝ) : ℝ :=
  Real.sqrt (∑ j, (blockSpectrum h w fr j - blockSpectrum h w fc j) ^ 2)
    / (Real.sqrt (∑ j, blockSpectrum h w fr j ^ 2)
       + Real.sqrt (∑ j, blockSpectrum h w fc j ^ 2))

/-- The per-block distance for the aligned block pair `(bi, bj)` of
channel `ch` (§4.7–§4.8): the block starts at
`(bi·blockH, bj·blockW)` with extent reduced at the image border. -/
noncomputable def blockDist (m : BlockSVDMetric) (ref cmp : RImage)
    (ch bi bj : ℕ) : ℝ :=
  spectrumDistance (min m.blockH (ref.rows - bi * m.blockH))
    (min m.blockW (ref.cols - bj * m.blockW))
    (fun i j => ref.data (bi * m.blockH + i) (bj * m.blockW + j) ch)
    (fun i j => cmp.data (bi * m.blockH + i) (bj * m.blockW + j) ch)

/-- Modelled from the spec: the per-channel scalar score (§4.8): one minus
the mean of the per-block distances, so the score lives on the 0 (worst)
to 1 (best) scale (`nonfree.hpp` line 120). -/
noncomputable def channelScoreB (m : BlockSVDMetric) (ref cmp : RImage)
    (ch : ℕ) : ℝ :=
  1 - (∑ bi in Finset.range (gridRows m.blockH ref.rows),
        ∑ bj in Finset.range (gridCols m.blockW ref.cols),
          blockDist m ref cmp ch bi bj)
      / ((gridRows m.blockH ref.rows * gridCols m.blockW ref.cols : ℕ) : ℝ)

/-- Modelled from the spec:
`QualityBlockSVD::compute(ref, cmp, qualityMap)` (`nonfree.hpp` line 122,
implementation absent): validates that reference and comparison agree in
size and channel count (failing with `DimensionMismatch`, §4.8), then
returns the per-channel scores together with the per-block quality map
when one is requested (`wantMap = true`; `cv::noArray()` is modelled as
`wantMap = false`). -/
noncomputable def computeBlockSVD (m : BlockSVDMetric) (ref cmp : RImage)
    (wantMap : Bool) :
    Except QErr ((ℕ → ℝ) × Option (ℕ → ℕ → ℕ → ℝ)) :=
  if ref.rows = cmp.rows ∧ ref.cols = cmp.cols ∧ ref.channels = cmp.channels then
    .ok (fun ch => channelScoreB m ref cmp ch,
         if wantMap then some (fun ch bi bj => blockDist m ref cmp ch bi bj)
         else none)
  else .error .dimensionMismatch

/-- Embedded from the source (`nonfree.hpp` lines 130–133): the two-argument
`QualityBlockSVD::compute(ref, cmp)` is an inline delegation to the
three-argument overload with `cv::noArray()` as the quality-map output. -/
noncomputable def computeBlockSVD2 (m : BlockSVDMetric) (ref cmp : RImage) :
    Except QErr ((ℕ → ℝ) × Option (ℕ → ℕ → ℕ → ℝ)) :=
  computeBlockSVD m ref cmp false

/-- A distorted version of a pristine image: pointwise addition of `t`
times a fixed noise pattern (§8, "additive noise at increasing
variance"). -/
def addNoise (p : RImage) (t : ℝ) (n : RImage) : RImage :=
  ⟨p.rows, p.cols, p.channels, fun i j c => p.data i j c + t * n.data i j c⟩

/-- A concrete 2×2 single-channel image used to instantiate theorems. -/
def wSelfImg : RImage := ⟨2, 2, 1, fun _ _ _ => 1⟩

/-- A 100×100 single-channel reference image. -/
def wRef100 : RImage := ⟨100, 100, 1, fun _ _ _ => 0⟩

/-- A 50×50 single-channel comparison image. -/
def wCmp50 : RImage := ⟨50, 50, 1, fun _ _ _ => 0⟩

/-- The pristine image of the §8 monotonicity scenario. -/
def pristine : RImage := ⟨1, 1, 1, fun _ _ _ => 1⟩

/-- The fixed noise pattern of the §8 monotonicity scenario. -/
def noisePattern : RImage := ⟨1, 1, 1, fun _ _ _ => -1⟩

/-- A trivial engine whose model and range dimensions agree with
`featLen`. -/
def wEngine : GMLOGEngine := ⟨⟨featLen, [], [], 0⟩, List.replicate featLen (0, 0)⟩

/-- A concrete 2×2 3-channel colour image. -/
def wColorImg : QImage := ⟨2, 2, 3, fun _ _ _ => 0⟩

/-- A concrete 5×3 grayscale image of a different spatial size. -/
def wBigImg : QImage := ⟨5, 3, 1, fun i j _ => (i : ℚ) + j⟩

lemma length_buildLevels (n : ℕ) : ∀ (r c : ℕ) (f : ℕ → ℕ → ℚ),
    (buildLevels n r c f).length = n := by
  induction n with
  | zero => intro r c f; rfl
  | succ k ih => intro r c f; simp [buildLevels, ih]

lemma length_scaleStats (rows cols : ℕ) (f : ℕ → ℕ → ℚ) :
    (scaleStats rows cols f).length = statsPerScale := rfl

lemma featuresOfMap_ok (rows cols : ℕ) (f : ℕ → ℕ → ℚ)
    (h1 : minSide ≤ rows) (h2 : minSide ≤ cols) :
    ∃ v, featuresOfMap rows cols f = .ok v ∧ v.length = featLen := by
  refine ⟨((buildLevels numScales rows cols f).map
            (fun l => scaleStats l.1 l.2.1 l.2.2)).flatten, ?_, ?_⟩
  · rw [featuresOfMap, if_neg]
    push_neg
    exact ⟨h1, h2⟩
  · rw [List.length_flatten, List.map_map]
    have hc : (List.length ∘ fun l : ℕ × ℕ × (ℕ → ℕ → ℚ) => scaleStats l.1 l.2.1 l.2.2)
        = fun _ => statsPerScale := by
      funext l
      exact length_scaleStats l.1 l.2.1 l.2.2
    rw [hc, List.map_const', List.sum_replicate, length_buildLevels]
    rfl

lemma length_rangeNormalize (rng : List (ℚ × ℚ)) (v : List ℚ) :
    (rangeNormalize rng v).length = min rng.length v.length := by
  simp [rangeNormalize]

lemma channelScoreG_ok (e : GMLOGEngine) (rows cols : ℕ) (f : ℕ → ℕ → ℚ)
    (hm : e.model.dim = featLen) (hr : e.rng.length = featLen)
    (h1 : minSide ≤ rows) (h2 : minSide ≤ cols) :
    ∃ s, channelScoreG e rows cols f = .ok s := by
  obtain ⟨v, hv, hlen⟩ := featuresOfMap_ok rows cols f h1 h2
  refine ⟨e.model.bias + (List.zipWith (fun c s => c * dotQ s (rangeNormalize e.rng v))
            e.model.coef e.model.sv).sum, ?_⟩
  rw [channelScoreG, hv]
  show predict e.model (rangeNormalize e.rng v) = _
  rw [predict, if_pos]
  rw [length_rangeNormalize, hlen, hr, hm, min_self]

lemma sum_eigenvalues_eq_trace {n : ℕ} {A : Matrix (Fin n) (Fin n) ℝ}
    (hA : A.IsHermitian) : ∑ i, hA.eigenvalues i = A.trace := by
  conv_rhs => rw [hA.spectral_theorem]
  rw [Matrix.trace_mul_comm, ← mul_assoc, unitary.coe_star_mul_self, one_mul,
    Matrix.trace_diagonal]
  simp

lemma eigenvalues_fin_one {A : Matrix (Fin 1) (Fin 1) ℝ} (hA : A.IsHermitian)
    (j : Fin 1) : hA.eigenvalues j = A 0 0 := by
  have h := sum_eigenvalues_eq_trace hA
  rw [Fin.sum_univ_one, Matrix.trace_fin_one] at h
  rw [Subsingleton.elim j 0, h]

lemma blockSpectrum_one (f : ℕ → ℕ → ℝ) (j : Fin 1) :
    blockSpectrum 1 1 f j = |f 0 0| := by
  rw [blockSpectrum, eigenvalues_fin_one]
  show Real.sqrt (gram 1 1 f 0 0) = _
  have hg : gram 1 1 f 0 0 = f 0 0 * f 0 0 := by
    simp [gram, Finset.sum_range_one]
  rw [hg, Real.sqrt_mul_self_eq_abs]

lemma spectrumDistance_one (fr fc : ℕ → ℕ → ℝ) :
    spectrumDistance 1 1 fr fc
      = |(|fr 0 0| - |fc 0 0|)| / (|fr 0 0| + |fc 0 0|) := by
  rw [spectrumDistance]
  rw [Fin.sum_univ_one, Fin.sum_univ_one, Fin.sum_univ_one]
  rw [blockSpectrum_one, blockSpectrum_one]
  rw [Real.sqrt_sq_eq_abs, Real.sqrt_sq_eq_abs, Real.sqrt_sq_eq_abs, abs_abs, abs_abs]

lemma spectrumDistance_self (h w : ℕ) (f : ℕ → ℕ → ℝ) :
    spectrumDistance h w f f = 0 := by
  rw [spectrumDistance]
  simp

lemma spectrumDistance_nonneg (h w : ℕ) (fr fc : ℕ → ℕ → ℝ) :
    0 ≤ spectrumDistance h w fr fc :=
  div_nonneg (Real.sqrt_nonneg _)
    (add_nonneg (Real.sqrt_nonneg _) (Real.sqrt_nonneg _))

lemma blockDist_self (m : BlockSVDMetric) (p : RImage) (ch bi bj : ℕ) :
    blockDist m p p ch bi bj = 0 := by
  rw [blockDist]
  exact spectrumDistance_self _ _ _

lemma blockDist_nonneg (m : BlockSVDMetric) (ref cmp : RImage) (ch bi bj : ℕ) :
    0 ≤ blockDist m ref cmp ch bi bj := by
  rw [blockDist]
  exact spectrumDistance_nonneg _ _ _ _

lemma channelScoreB_self (m : BlockSVDMetric) (p : RImage) (ch : ℕ) :
    channelScoreB m p p ch = 1 := by
  rw [channelScoreB]
  simp [blockDist_self]

/-- C1: for a QualityBlockSVD metric, if the comparison image is
pixel-identical to the reference image, then `compute(ref, cmp, qualityMap)`
writes 0 into every entry of the output quality map and returns a
per-channel score of 1, for every blockSize (valid ones included). -/
theorem C1_blocksvd_self_comparison (m : BlockSVDMetric) (ref cmp : RImage)
    (hid : cmp = ref) :
    ∃ scores qmap,
      computeBlockSVD m ref cmp true = .ok (scores, some qmap)
      ∧ (∀ ch bi bj, qmap ch bi bj = 0)
      ∧ (∀ ch, scores ch = 1) := by
  subst hid
  refine ⟨fun ch => channelScoreB m cmp cmp ch,
          fun ch bi bj => blockDist m cmp cmp ch bi bj, ?_, ?_, ?_⟩
  · rw [computeBlockSVD, if_pos ⟨rfl, rfl, rfl⟩, if_pos rfl]
  · intro ch bi bj
    exact blockDist_self m cmp ch bi bj
  · intro ch
    exact channelScoreB_self m cmp ch

/-- C1 witness: the self-comparison property instantiated on a concrete
2×2 image with the default 8×8 block size. -/
theorem C1_blocksvd_self_comparison_witness :
    ∃ scores qmap,
      computeBlockSVD ⟨8, 8⟩ wSelfImg wSelfImg true = .ok (scores, some qmap)
      ∧ (∀ ch bi bj, qmap ch bi bj = 0)
      ∧ (∀ ch, scores ch = 1) :=
  C1_blocksvd_self_comparison ⟨8, 8⟩ wSelfImg wSelfImg rfl

/-- C4: `QualityBlockSVD::compute(ref, cmp, qualityMap)` fails with
`DimensionMismatch` whenever the reference and comparison images differ in
spatial size or channel count, and returns no score in that case. -/
theorem C4_blocksvd_dimension_mismatch (m : BlockSVDMetric) (ref cmp : RImage)
    (wantMap : Bool)
    (h : ref.rows ≠ cmp.rows ∨ ref.cols ≠ cmp.cols ∨ ref.channels ≠ cmp.channels) :
    computeBlockSVD m ref cmp wantMap = .error .dimensionMismatch
    ∧ ∀ r, computeBlockSVD m ref cmp wantMap ≠ .ok r := by
  have hcond : ¬(ref.rows = cmp.rows ∧ ref.cols = cmp.cols
      ∧ ref.channels = cmp.channels) := by tauto
  refine ⟨?_, ?_⟩
  · rw [computeBlockSVD, if_neg hcond]
  · intro r hr
    rw [computeBlockSVD, if_neg hcond] at hr
    exact Except.noConfusion hr

/-- C4 witness: a 100×100 reference against a 50×50 comparison fails with
`DimensionMismatch`. -/
theorem C4_blocksvd_dimension_mismatch_witness :
    computeBlockSVD ⟨8, 8⟩ wRef100 wCmp50 true = .error .dimensionMismatch
    ∧ ∀ r, computeBlockSVD ⟨8, 8⟩ wRef100 wCmp50 true ≠ .ok r :=
  C4_blocksvd_dimension_mismatch ⟨8, 8⟩ wRef100 wCmp50 true (Or.inl (by decide))

lemma blockDist_noise (t : ℝ) :
    blockDist ⟨8, 8⟩ pristine (addNoise pristine t noisePattern) 0 0 0
      = |(1 - |1 + t * (-1)|)| / (1 + |1 + t * (-1)|) := by
  have h : blockDist ⟨8, 8⟩ pristine (addNoise pristine t noisePattern) 0 0 0
      = spectrumDistance 1 1 (fun i j => pristine.data i j 0)
          (fun i j => (addNoise pristine t noisePattern).data i j 0) := by
    rw [blockDist]
    norm_num [pristine]
  rw [h, spectrumDistance_one]
  norm_num [pristine, noisePattern, addNoise]

lemma channelScoreB_noise (t : ℝ) :
    channelScoreB ⟨8, 8⟩ pristine (addNoise pristine t noisePattern) 0
      = 1 - |(1 - |1 + t * (-1)|)| / (1 + |1 + t * (-1)|) := by
  rw [channelScoreB]
  have hg : gridRows (BlockSVDMetric.mk 8 8).blockH pristine.rows = 1 := rfl
  have hc : gridCols (BlockSVDMetric.mk 8 8).blockW pristine.cols = 1 := rfl
  rw [hg, hc, Finset.sum_range_one, Finset.sum_range_one, blockDist_noise]
  norm_num

/-- C9 counterexample: with the pristine 1×1 image `pristine` and the fixed
additive noise pattern `noisePattern`, the distortion amounts 1 < 2 are
strictly increasing, yet the score against the pristine image strictly
increases from amount 1 to amount 2 (0 versus 1), so the scores are not
monotonically non-increasing. -/
theorem C9_blocksvd_monotonicity_counterexample :
    (1 : ℝ) < 2
    ∧ channelScoreB ⟨8, 8⟩ pristine (addNoise pristine 1 noisePattern) 0
        < channelScoreB ⟨8, 8⟩ pristine (addNoise pristine 2 noisePattern) 0 := by
  refine ⟨by norm_num, ?_⟩
  rw [channelScoreB_noise, channelScoreB_noise]
  norm_num

/-- C9 amended: along any sequence of distorted versions of a pristine
image, every per-channel Block-SVD score is bounded above by 1, the score
the pristine image attains against itself (zero distortion); per-step
monotonic non-increase does not hold. -/
theorem C9_blocksvd_score_bounded (m : BlockSVDMetric) (p cmp : RImage)
    (ch : ℕ) :
    channelScoreB m p cmp ch ≤ 1 ∧ channelScoreB m p p ch = 1 := by
  refine ⟨?_, channelScoreB_self m p ch⟩
  rw [channelScoreB]
  have hnum : (0 : ℝ) ≤ ∑ bi in Finset.range (gridRows m.blockH p.rows),
      ∑ bj in Finset.range (gridCols m.blockW p.cols),
        blockDist m p cmp ch bi bj :=
    Finset.sum_nonneg fun bi _ =>
      Finset.sum_nonneg fun bj _ => blockDist_nonneg m p cmp ch bi bj
  have hdiv : (0 : ℝ) ≤ (∑ bi in Finset.range (gridRows m.blockH p.rows),
      ∑ bj in Finset.range (gridCols m.blockW p.cols),
        blockDist m p cmp ch bi bj)
      / ((gridRows m.blockH p.rows * gridCols m.blockW p.cols : ℕ) : ℝ) :=
    div_nonneg hnum (Nat.cast_nonneg _)
  linarith

/-- C10: the two-argument `QualityBlockSVD::compute(ref, cmp)` — the inline
header delegation to `compute(ref, cmp, noArray())` — returns exactly the
per-channel scores of the three-argument overload: omitting the
quality-map output never changes the computed scores. -/
theorem C10_blocksvd_two_arg_scores (m : BlockSVDMetric) (ref cmp : RImage) :
    Except.map Prod.fst (computeBlockSVD2 m ref cmp)
      = Except.map Prod.fst (computeBlockSVD m ref cmp true) := by
  rw [computeBlockSVD2, computeBlockSVD, computeBlockSVD]
  by_cases h : ref.rows = cmp.rows ∧ ref.cols = cmp.cols
      ∧ ref.channels = cmp.channels
  · rw [if_pos h, if_pos h]
    rfl
  · rw [if_neg h, if_neg h]

/-- C2: for training bounds `(mn, mx)` with `mx ≠ mn` the RangeNormalizer
maps `x` to `-1 + 2 (x - mn) / (mx - mn)` clamped to `[-1, 1]`; when
`mx = mn` the output is 0; in particular `x = mn` yields -1 and `x = mx`
yields +1. -/
theorem C2_range_normalizer (mn mx x : ℚ) :
    (mx ≠ mn →
      normalizeDim mn mx x = clampQ (-1) 1 (-1 + 2 * (x - mn) / (mx - mn))
      ∧ normalizeDim mn mx mn = -1 ∧ normalizeDim mn mx mx = 1)
    ∧ (mx = mn → normalizeDim mn mx x = 0) := by
  constructor
  · intro h
    refine ⟨by rw [normalizeDim, if_neg h], ?_, ?_⟩
    · rw [normalizeDim, if_neg h]
      norm_num [clampQ]
    · rw [normalizeDim, if_neg h, mul_div_assoc,
        div_self (sub_ne_zero.mpr h)]
      norm_num [clampQ]
  · intro h
    rw [normalizeDim, if_pos h]

/-- C2 witness: bounds (0, 4) map 0 to -1 and 4 to +1; degenerate bounds
(3, 3) map 7 to 0. -/
theorem C2_range_normalizer_witness :
    normalizeDim 0 4 0 = -1 ∧ normalizeDim 0 4 4 = 1
    ∧ normalizeDim 3 3 7 = 0 :=
  ⟨((C2_range_normalizer 0 4 0).1 (by norm_num)).2.1,
   ((C2_range_normalizer 0 4 4).1 (by norm_num)).2.2,
   (C2_range_normalizer 3 3 7).2 rfl⟩

/-- C3: `QualityGMLOG::compute(img)` on a 3- or 4-channel colour image
produces one score per colour channel plus a final score for the derived
grayscale channel (4 scores); on a single-channel grayscale image it
produces a single score. -/
theorem C3_gmlog_channel_scores (e : GMLOGEngine) (img : QImage)
    (hm : e.model.dim = featLen) (hr : e.rng.length = featLen)
    (hrow : minSide ≤ img.rows) (hcol : minSide ≤ img.cols) :
    (img.channels = 1 → ∃ s, computeScores e img = .ok [s])
    ∧ ((img.channels = 3 ∨ img.channels = 4) →
        ∃ s0 s1 s2 sg, computeScores e img = .ok [s0, s1, s2, sg]
          ∧ channelScoreG e img.rows img.cols (fun i j => img.data i j 0) = .ok s0
          ∧ channelScoreG e img.rows img.cols (fun i j => img.data i j 1) = .ok s1
          ∧ channelScoreG e img.rows img.cols (fun i j => img.data i j 2) = .ok s2
          ∧ channelScoreG e img.rows img.cols (grayOf img) = .ok sg) := by
  constructor
  · intro h1
    obtain ⟨s, hs⟩ :=
      channelScoreG_ok e img.rows img.cols (fun i j => img.data i j 0) hm hr hrow hcol
    refine ⟨s, ?_⟩
    rw [computeScores, if_pos h1, hs]
    rfl
  · intro h34
    have hne1 : ¬img.channels = 1 := by
      rcases h34 with h | h <;> omega
    obtain ⟨s0, h0⟩ :=
      channelScoreG_ok e img.rows img.cols (fun i j => img.data i j 0) hm hr hrow hcol
    obtain ⟨s1, h1⟩ :=
      channelScoreG_ok e img.rows img.cols (fun i j => img.data i j 1) hm hr hrow hcol
    obtain ⟨s2, h2⟩ :=
      channelScoreG_ok e img.rows img.cols (fun i j => img.data i j 2) hm hr hrow hcol
    obtain ⟨sg, hg⟩ :=
      channelScoreG_ok e img.rows img.cols (grayOf img) hm hr hrow hcol
    refine ⟨s0, s1, s2, sg, ?_, h0, h1, h2, hg⟩
    rw [computeScores, if_neg hne1, if_pos h34, h0, h1, h2, hg]
    rfl

/-- C3 witness: a consistent engine on a concrete 2×2 3-channel colour
image yields four scores. -/
theorem C3_gmlog_channel_scores_witness :
    ∃ s0 s1 s2 sg, computeScores wEngine wColorImg = .ok [s0, s1, s2, sg] := by
  obtain ⟨s0, s1, s2, sg, hok, -, -, -, -⟩ :=
    (C3_gmlog_channel_scores wEngine wColorImg rfl (by simp [wEngine])
      (by decide) (by decide)).2 (Or.inl rfl)
  exact ⟨s0, s1, s2, sg, hok⟩

/-- C5: a model/range pair whose dimensions are inconsistent fails with
`ConfigurationError` at `create`; no engine is ever constructed from such
a pair, so the inconsistency cannot be first detected at a later
`compute` call. -/
theorem C5_create_configuration_error (m : SVMModel) (r : List (ℚ × ℚ)) :
    (m.dim ≠ r.length →
      create m r = .error .configurationError ∧ ∀ e, create m r ≠ .ok e)
    ∧ (∀ e, create m r = .ok e → m.dim = r.length) := by
  constructor
  · intro h
    refine ⟨by rw [create, if_neg h], ?_⟩
    intro e he
    rw [create, if_neg h] at he
    exact Except.noConfusion he
  · intro e he
    by_contra hne
    rw [create, if_neg hne] at he
    exact Except.noConfusion he

/-- C5 witness: a model expecting L = 24 against a range of length 18
fails at construction. -/
theorem C5_create_configuration_error_witness :
    create ⟨24, [], [], 0⟩ (List.replicate 18 (0, 0)) = .error .configurationError
    ∧ ∀ e, create ⟨24, [], [], 0⟩ (List.replicate 18 (0, 0)) ≠ .ok e :=
  (C5_create_configuration_error ⟨24, [], [], 0⟩ (List.replicate 18 (0, 0))).1
    (by simp)

/-- C6: for every image and engine instance, `compute` invoked twice on
the same instance yields identical results — the engine is a deterministic
function of its bound model/range and the input image, and the call
leaves the instance state unchanged (no cross-call per-image state). -/
theorem C6_gmlog_determinism (e : GMLOGEngine) (img : QImage) :
    (computeSt e img).1 = (computeSt (computeSt e img).2 img).1
    ∧ (computeSt e img).2 = e :=
  ⟨rfl, rfl⟩

/-- C7: for all valid input images above the minimum size,
`computeFeatures` returns a feature vector of the fixed length determined
only by the configuration: number of scales × per-scale statistic
count. -/
theorem C7_feature_length_invariance (img : QImage)
    (hrow : minSide ≤ img.rows) (hcol : minSide ≤ img.cols) :
    ∃ v, computeFeatures img = .ok v ∧ v.length = numScales * statsPerScale :=
  featuresOfMap_ok img.rows img.cols (toIntensity img) hrow hcol

/-- C7 witness: two images of different spatial sizes (2×2 and 5×3) both
yield feature vectors of the same fixed length. -/
theorem C7_feature_length_invariance_witness :
    (∃ v, computeFeatures wColorImg = .ok v
       ∧ v.length = numScales * statsPerScale)
    ∧ (∃ v, computeFeatures wBigImg = .ok v
       ∧ v.length = numScales * statsPerScale) :=
  ⟨C7_feature_length_invariance wColorImg (by decide) (by decide),
   C7_feature_length_invariance wBigImg (by decide) (by decide)⟩

/-- C8: the three-argument `compute(img, modelPath, rangePath)` uses the
loaded Model/Range for that call only and leaves the instance's bound
Model and Range (all instance state) unchanged; a subsequent `compute` on
the instance returns exactly what it would have returned before the
call. -/
theorem C8_stateless_variant_frame (e : GMLOGEngine) (img img2 : QImage)
    (m : SVMModel) (r : List (ℚ × ℚ)) :
    (computeWithArtifacts e img2 m r).2 = e
    ∧ (computeSt (computeWithArtifacts e img2 m r).2 img).1
        = (computeSt e img).1 :=
  ⟨rfl, rfl⟩

end XQuality
